import Mathlib

/-!
Verification of the real-time audio scheduling core of the waveboard
repository (the AudioService class).

Embedding conventions:
* JavaScript numbers are modelled by `JSNum`: an exact rational together
  with the three non-finite values NaN, +Infinity and -Infinity.  Rational
  arithmetic models IEEE doubles without rounding or overflow; every claim
  here is about exact small constants, where the two agree.
* Fields that the scheduling logic only ever uses as plain real quantities
  (tempo, clock times, frequencies, ratios) are modelled directly as `ℚ`;
  fields whose non-finite behaviour the code explicitly has to handle
  (gains, fractal-pattern entries, phase offsets) are modelled as `JSNum`.
* The mutable `AudioService` instance becomes the `Engine` structure; each
  method becomes a pure function from an `Engine` (plus the audio-clock
  reading) to a new `Engine` together with a list of externally visible
  `Action`s / scheduled events.  The `while` drain loop of `scheduler`
  becomes the fuel-indexed `schedulerLoop`.
* Web-Audio node creation is modelled by the `Voice` record carrying the
  parameters the code sets on the oscillator / gain pair; the live-voice
  set `activeOscillators` is a list of opaque oscillator identifiers.
-/

namespace Orpheus

/-- A JavaScript number: a finite rational or one of NaN, +Inf, -Inf. -/
inductive JSNum where
  | fin (q : ℚ)
  | nan
  | posInf
  | negInf
deriving DecidableEq, Repr

/-- IEEE multiplication on `JSNum` (finite products are exact). -/
def JSNum.mul : JSNum → JSNum → JSNum
  | nan, _ => nan
  | _, nan => nan
  | fin a, fin b => fin (a * b)
  | posInf, fin b => if 0 < b then posInf else if b < 0 then negInf else nan
  | fin a, posInf => if 0 < a then posInf else if a < 0 then negInf else nan
  | negInf, fin b => if 0 < b then negInf else if b < 0 then posInf else nan
  | fin a, negInf => if 0 < a then negInf else if a < 0 then posInf else nan
  | posInf, posInf => posInf
  | posInf, negInf => negInf
  | negInf, posInf => negInf
  | negInf, negInf => posInf

/-- IEEE addition on `JSNum`. -/
def JSNum.add : JSNum → JSNum → JSNum
  | nan, _ => nan
  | _, nan => nan
  | posInf, negInf => nan
  | negInf, posInf => nan
  | posInf, _ => posInf
  | _, posInf => posInf
  | negInf, _ => negInf
  | _, negInf => negInf
  | fin a, fin b => fin (a + b)

/-- The JavaScript comparison `x <= y` (false whenever NaN is involved). -/
def JSNum.jsLe : JSNum → JSNum → Bool
  | nan, _ => false
  | _, nan => false
  | negInf, _ => true
  | fin _, negInf => false
  | posInf, negInf => false
  | _, posInf => true
  | posInf, fin _ => false
  | fin a, fin b => decide (a ≤ b)

/-- JavaScript `Math.min` (NaN-propagating). -/
def jsMin : JSNum → JSNum → JSNum
  | .nan, _ => .nan
  | _, .nan => .nan
  | .negInf, _ => .negInf
  | _, .negInf => .negInf
  | .posInf, y => y
  | x, .posInf => x
  | .fin a, .fin b => .fin (min a b)

/-- JavaScript `Math.max` (NaN-propagating). -/
def jsMax : JSNum → JSNum → JSNum
  | .nan, _ => .nan
  | _, .nan => .nan
  | .posInf, _ => .posInf
  | _, .posInf => .posInf
  | .negInf, y => y
  | x, .negInf => x
  | .fin a, .fin b => .fin (max a b)

/-- JavaScript `x || d` applied to a property lookup: `undefined`, `NaN`
and `0` are falsy and replaced by the default. -/
def jsOr : Option JSNum → JSNum → JSNum
  | Option.none, d => d
  | some JSNum.nan, d => d
  | some (JSNum.fin q), d => if q = 0 then d else JSNum.fin q
  | some v, _ => v

/-- OscillatorNode type strings accepted by the code (`types.ts`). -/
inductive Waveform where
  | sine
  | square
  | sawtooth
  | triangle
deriving DecidableEq, Repr

/-- The `gatingMode` field of a harmonic layer. -/
inductive GatingMode where
  | none
  | fractal
deriving DecidableEq, Repr

/-- `HarmonicLayer` from `types.ts` (display label kept, unused by logic).
`fractalPattern` is `Option`al so a missing (undefined) pattern is
distinguishable from an empty one, as in the JS truthiness test. -/
structure HarmonicLayer where
  id : String
  label : String
  ratio : ℚ
  waveform : Waveform
  gain : JSNum
  gatingMode : GatingMode
  fractalPattern : Option (List JSNum)
deriving DecidableEq, Repr

/-- `StepSettings` from `types.ts`; `phaseOffsets` is the
`Record<string, number>` keyed by layer id. -/
structure StepSettings where
  enabled : Bool
  baseFrequency : ℚ
  stepGain : JSNum
  phaseOffsets : List (String × JSNum)
deriving DecidableEq, Repr

/-- The scene state held by the service (fields the scheduling core reads;
scene metadata is display-only and omitted). -/
structure OrpheusState where
  harmonicLayers : List HarmonicLayer
  steps : List StepSettings
  tempo : ℚ
  masterGain : ℚ
deriving DecidableEq, Repr

/-- `NUM_STEPS` from `constants.ts`. -/
def NUM_STEPS : Nat := 16

/-- `scheduleAheadTime` (seconds) of the service. -/
def scheduleAheadTime : ℚ := 1 / 10

/-- The sixteenth-note step duration `(60 / tempo) / 4` computed at
lines 196 and 250 of the service. -/
def stepDurationSec (tempo : ℚ) : ℚ := 60 / tempo / 4

/-- The fractal-gating multiplier of `scheduleNote` (lines 204-215):
`gating` starts at `1.0`; in `fractal` mode it is replaced by the
pattern entry at `stepNumber % pattern.length` (a missing or empty
pattern acting as `[1.0]`), with a non-finite or negative entry coerced
to `0`.  The result is therefore always a finite rational. -/
def gate (layer : HarmonicLayer) (stepNumber : Nat) : ℚ :=
  match layer.gatingMode with
  | GatingMode.none => 1
  | GatingMode.fractal =>
    let pattern : List JSNum :=
      match layer.fractalPattern with
      | some p => if 0 < p.length then p else [JSNum.fin 1]
      | Option.none => [JSNum.fin 1]
    match pattern[stepNumber % pattern.length]? with
    | some (JSNum.fin q) => if q < 0 then 0 else q
    | _ => 0

/-- `peakGain = step.stepGain * layer.gain * gating` (line 217),
with JavaScript multiplication. -/
def peakGainOf (step : StepSettings) (layer : HarmonicLayer) (stepNumber : Nat) : JSNum :=
  (step.stepGain.mul layer.gain).mul (JSNum.fin (gate layer stepNumber))

/-- The parameters `scheduleNote` sets on one oscillator/gain pair
(lines 225-243): waveform, frequency, envelope peak, the offset start
time and the scheduled stop time. -/
structure Voice where
  waveform : Waveform
  frequency : ℚ
  peakGain : JSNum
  startTime : JSNum
  attack : ℚ
  decay : ℚ
  stopTime : JSNum
deriving DecidableEq, Repr

/-- The body of the per-layer `forEach` of `scheduleNote`
(lines 201-244): skip a layer with non-positive gain, compute the gated
peak gain, skip it when `peakGain <= 0.001` (JavaScript comparison, so a
NaN peak gain is NOT skipped), otherwise build the voice whose start is
delayed by the clamped phase offset.  `stepDurSec`, `attack` and `decay`
are hoisted to `scheduleNote` in the source (lines 196-198) and passed
down here. -/
def voiceForLayer (stepDurSec : ℚ) (step : StepSettings) (stepNumber : Nat)
    (time : ℚ) (layer : HarmonicLayer) : Option Voice :=
  if layer.gain.jsLe (JSNum.fin 0) then Option.none else
  let peakGain := peakGainOf step layer stepNumber
  if peakGain.jsLe (JSNum.fin (1 / 1000)) then Option.none else
  let attack : ℚ := 1 / 100
  let decay : ℚ := stepDurSec * (8 / 10)
  let phaseFrac := jsOr (step.phaseOffsets.lookup layer.id) (JSNum.fin 0)
  let offsetSec := (jsMax (JSNum.fin 0) (jsMin (JSNum.fin (9 / 10)) phaseFrac)).mul
      (JSNum.fin stepDurSec)
  let layerStartTime := (JSNum.fin time).add offsetSec
  some { waveform := layer.waveform
         frequency := step.baseFrequency * layer.ratio
         peakGain := peakGain
         startTime := layerStartTime
         attack := attack
         decay := decay
         stopTime := ((layerStartTime.add (JSNum.fin attack)).add (JSNum.fin decay)).add
             (JSNum.fin (1 / 10)) }

/-- The whole mutable `AudioService` instance.  `ctxInitialized` stands
for both `this.ctx` and `this.schumannGainNode` being non-null (they are
created together by `initialize`); `timerArmed` records whether a
`setTimeout` tick is pending; `activeOscillators` holds opaque ids of
the tracked oscillator nodes. -/
structure Engine where
  ctxInitialized : Bool
  isPlaying : Bool
  timerArmed : Bool
  activeOscillators : List Nat
  stepCallbackRegistered : Bool
  currentStep : Nat
  nextNoteTime : ℚ
  state : OrpheusState
deriving DecidableEq, Repr

/-- Externally visible side effects of the transport methods. -/
inductive Action where
  | oscStop (id : Nat)
  | invokeScheduler
deriving DecidableEq, Repr

/-- The observable output of one `scheduleNote` call: the step-callback
timeouts it queues, as (step index, delay in ms), and the voices it
creates. -/
structure NoteEvents where
  callbackEvents : List (Nat × ℚ)
  voices : List Voice
deriving DecidableEq, Repr

/-- `scheduleNote(stepNumber, time)` (lines 183-245).  `now` is
`this.ctx.currentTime`.  The callback timeout (delay
`max(0, (time - now) * 1000)` ms) is queued before the step guards, so
it fires even for missing, disabled or silent steps; a missing step
entry, a disabled step or a non-positive (JavaScript `<=`) step gain
produces no voices. -/
def scheduleNote (e : Engine) (stepNumber : Nat) (time : ℚ) (now : ℚ) : NoteEvents :=
  if e.ctxInitialized then
    let cbEvents : List (Nat × ℚ) :=
      if e.stepCallbackRegistered then [(stepNumber, max 0 ((time - now) * 1000))] else []
    match e.state.steps[stepNumber]? with
    | Option.none => ⟨cbEvents, []⟩
    | some step =>
      if !step.enabled || step.stepGain.jsLe (JSNum.fin 0) then ⟨cbEvents, []⟩ else
      ⟨cbEvents,
        e.state.harmonicLayers.filterMap
          (voiceForLayer (stepDurationSec e.state.tempo) step stepNumber time)⟩
  else ⟨[], []⟩

/-- The `while` drain loop of `scheduler` (lines 252-259), fuel-indexed.
`d` is the step duration hoisted at line 250 and `deadline` is
`currentTime + scheduleAheadTime`.  Returns the final cursor, the final
`nextNoteTime` and the (step, time) pairs passed to `scheduleNote`, in
order. -/
def schedulerLoop (d deadline : ℚ) : Nat → Nat → ℚ → Nat × ℚ × List (Nat × ℚ)
  | 0, cur, next => (cur, next, [])
  | fuel + 1, cur, next =>
    if next < deadline then
      let cur2 := if cur + 1 = NUM_STEPS then 0 else cur + 1
      let r := schedulerLoop d deadline fuel cur2 (next + d)
      (r.1, r.2.1, (cur, next) :: r.2.2)
    else (cur, next, [])

/-- One invocation of `scheduler()` (lines 247-264), i.e. one tick: it
consumes the timer that fired, returns immediately if the context is
missing, otherwise drains the look-ahead window (the step duration is
computed once from the tempo current at this tick) and re-arms the timer
only when `isPlaying` is still true.  The returned list holds the
`scheduleNote` output for each drained step. -/
def schedulerTick (e : Engine) (now : ℚ) (fuel : Nat) : Engine × List NoteEvents :=
  if e.ctxInitialized then
    let d := stepDurationSec e.state.tempo
    let r := schedulerLoop d (now + scheduleAheadTime) fuel e.currentStep e.nextNoteTime
    ({ e with currentStep := r.1, nextNoteTime := r.2.1, timerArmed := e.isPlaying },
     r.2.2.map (fun ev => scheduleNote e ev.1 ev.2 now))
  else ({ e with timerArmed := false }, [])

/-- `start(onStep)` (lines 106-119): lazily create the context, no-op if
already playing, otherwise register the callback, reset the cursor, set
`nextNoteTime = now + 0.05` and invoke the scheduler.  (Resuming a
suspended context is a platform effect outside the model.) -/
def start (e : Engine) (now : ℚ) (cbProvided : Bool) : Engine × List Action :=
  let e1 := if e.ctxInitialized then e else { e with ctxInitialized := true }
  if e1.isPlaying then (e1, []) else
  ({ e1 with stepCallbackRegistered := cbProvided
             isPlaying := true
             currentStep := 0
             nextNoteTime := now + 1 / 20 }, [Action.invokeScheduler])

/-- `stopAllVoices` (lines 176-181): force-stop every tracked oscillator
and clear the set (a stop on an already-ended node throws and is
swallowed by the try/catch; the removal happens regardless). -/
def stopAllVoices (voices : List Nat) : List Action × List Nat :=
  (voices.map Action.oscStop, [])

/-- `stop()` (lines 121-125): clear `isPlaying`, cancel the pending tick
timeout, force-stop and clear all live voices. -/
def stop (e : Engine) : Engine × List Action :=
  let r := stopAllVoices e.activeOscillators
  ({ e with isPlaying := false, timerArmed := false, activeOscillators := r.2 }, r.1)

/-! ### Helper lemmas about the drain loop -/

lemma schedulerLoop_succ_pos (d deadline : ℚ) (fuel cur : Nat) (next : ℚ)
    (h : next < deadline) :
    schedulerLoop d deadline (fuel + 1) cur next =
      ((schedulerLoop d deadline fuel (if cur + 1 = NUM_STEPS then 0 else cur + 1)
          (next + d)).1,
       (schedulerLoop d deadline fuel (if cur + 1 = NUM_STEPS then 0 else cur + 1)
          (next + d)).2.1,
       (cur, next) ::
         (schedulerLoop d deadline fuel (if cur + 1 = NUM_STEPS then 0 else cur + 1)
            (next + d)).2.2) := by
  simp [schedulerLoop, h]

lemma schedulerLoop_succ_neg (d deadline : ℚ) (fuel cur : Nat) (next : ℚ)
    (h : ¬ next < deadline) :
    schedulerLoop d deadline (fuel + 1) cur next = (cur, next, []) := by
  simp [schedulerLoop, h]

lemma cursorStep_mod (cur : Nat) (hcur : cur < 16) :
    (if cur + 1 = NUM_STEPS then 0 else cur + 1) = (cur + 1) % 16 := by
  simp only [NUM_STEPS]
  split <;> omega

lemma schedulerLoop_get (d deadline : ℚ) :
    ∀ (fuel cur : Nat) (next : ℚ), cur < 16 → ∀ (k : Nat),
      k < ((schedulerLoop d deadline fuel cur next).2.2).length →
        ((schedulerLoop d deadline fuel cur next).2.2)[k]? =
          some ((cur + k) % 16, next + (k : ℚ) * d) := by
  intro fuel
  induction fuel with
  | zero =>
    intro cur next hcur k hk
    simp [schedulerLoop] at hk
  | succ n ih =>
    intro cur next hcur k hk
    by_cases hlt : next < deadline
    · rw [schedulerLoop_succ_pos d deadline n cur next hlt] at hk ⊢
      have hcur2 : (if cur + 1 = NUM_STEPS then 0 else cur + 1) < 16 := by
        rw [cursorStep_mod cur hcur]; omega
      cases k with
      | zero =>
        simp [Nat.mod_eq_of_lt hcur]
      | succ k =>
        have hk2 : k < ((schedulerLoop d deadline n
            (if cur + 1 = NUM_STEPS then 0 else cur + 1) (next + d)).2.2).length := by
          simpa using hk
        have hrec := ih (if cur + 1 = NUM_STEPS then 0 else cur + 1) (next + d) hcur2 k hk2
        simp only [List.getElem?_cons_succ]
        rw [hrec, cursorStep_mod cur hcur]
        have hmod : ((cur + 1) % 16 + k) % 16 = (cur + (k + 1)) % 16 := by omega
        have htime : next + d + (k : ℚ) * d = next + ((k : ℚ) + 1) * d := by ring
        rw [hmod, htime]
        push_cast
        ring_nf
    · rw [schedulerLoop_succ_neg d deadline n cur next hlt] at hk
      simp at hk

lemma schedulerLoop_final_cursor (d deadline : ℚ) :
    ∀ (fuel cur : Nat) (next : ℚ), cur < 16 →
      (schedulerLoop d deadline fuel cur next).1 =
        (cur + ((schedulerLoop d deadline fuel cur next).2.2).length) % 16 := by
  intro fuel
  induction fuel with
  | zero =>
    intro cur next hcur
    simp [schedulerLoop, Nat.mod_eq_of_lt hcur]
  | succ n ih =>
    intro cur next hcur
    by_cases hlt : next < deadline
    · rw [schedulerLoop_succ_pos d deadline n cur next hlt]
      have hcur2 : (if cur + 1 = NUM_STEPS then 0 else cur + 1) < 16 := by
        rw [cursorStep_mod cur hcur]; omega
      have hrec := ih (if cur + 1 = NUM_STEPS then 0 else cur + 1) (next + d) hcur2
      simp only [List.length_cons]
      rw [hrec, cursorStep_mod cur hcur]
      omega
    · rw [schedulerLoop_succ_neg d deadline n cur next hlt]
      simp [Nat.mod_eq_of_lt hcur]

lemma schedulerLoop_cursor_lt (d deadline : ℚ) (fuel cur : Nat) (next : ℚ)
    (hcur : cur < 16) :
    (schedulerLoop d deadline fuel cur next).1 < 16 := by
  rw [schedulerLoop_final_cursor d deadline fuel cur next hcur]
  omega

/-- A voice is produced for a layer exactly when both JavaScript guards of
the forEach body fail: the layer-gain guard and the epsilon guard. -/
lemma voiceForLayer_isSome (d : ℚ) (step : StepSettings) (n : Nat) (t : ℚ)
    (layer : HarmonicLayer) :
    (voiceForLayer d step n t layer).isSome = true ↔
      layer.gain.jsLe (JSNum.fin 0) = false ∧
      (peakGainOf step layer n).jsLe (JSNum.fin (1 / 1000)) = false := by
  unfold voiceForLayer
  split_ifs <;> simp_all

/-- The start time a produced voice carries: the step's nominal time plus
the clamped phase offset times the step duration. -/
lemma voiceForLayer_startTime (d : ℚ) (step : StepSettings) (n : Nat) (t : ℚ)
    (layer : HarmonicLayer) (v : Voice)
    (hv : voiceForLayer d step n t layer = some v) :
    v.startTime = (JSNum.fin t).add
      ((jsMax (JSNum.fin 0) (jsMin (JSNum.fin (9 / 10))
        (jsOr (step.phaseOffsets.lookup layer.id) (JSNum.fin 0)))).mul (JSNum.fin d)) := by
  unfold voiceForLayer at hv
  by_cases h1 : layer.gain.jsLe (JSNum.fin 0) = true
  · rw [if_pos h1] at hv
    exact Option.noConfusion hv
  · rw [if_neg h1] at hv
    by_cases h2 : (peakGainOf step layer n).jsLe (JSNum.fin (1 / 1000)) = true
    · rw [if_pos h2] at hv
      exact Option.noConfusion hv
    · rw [if_neg h2] at hv
      simp only [Option.some.injEq] at hv
      subst hv
      rfl

/-- Clamping to [0, 0.9] written the code's way (`max` outside) equals the
spec's way (`min` outside). -/
lemma clamp_eq (f : ℚ) : max 0 (min (9 / 10) f) = min (max f 0) (9 / 10) := by
  simp only [min_def, max_def]
  split_ifs <;> linarith

/-! ### Concrete sample data used by witnesses and counterexamples -/

/-- A root layer with unit gain and gating disabled. -/
def layerUnit : HarmonicLayer :=
  { id := "root", label := "Root", ratio := 1, waveform := Waveform.sine,
    gain := JSNum.fin 1, gatingMode := GatingMode.none, fractalPattern := some [JSNum.fin 1] }

/-- The fifth layer of the initial state: fractal gating with the halving
pattern. -/
def layerFifth : HarmonicLayer :=
  { id := "fifth", label := "Fifth", ratio := 3 / 2, waveform := Waveform.square,
    gain := JSNum.fin (6 / 10), gatingMode := GatingMode.fractal,
    fractalPattern := some [JSNum.fin 1, JSNum.fin (1 / 2), JSNum.fin (1 / 4),
      JSNum.fin (1 / 8)] }

/-- A layer whose gain is NaN (e.g. a scene imported from a corrupted
JSON file), gating disabled. -/
def layerNanGain : HarmonicLayer :=
  { id := "root", label := "Root", ratio := 1, waveform := Waveform.sine,
    gain := JSNum.nan, gatingMode := GatingMode.none, fractalPattern := some [JSNum.fin 1] }

/-- An enabled unit-gain step with a half-step phase offset for the root
layer. -/
def stepUnit : StepSettings :=
  { enabled := true, baseFrequency := 16, stepGain := JSNum.fin 1,
    phaseOffsets := [("root", JSNum.fin (1 / 2))] }

/-- A step whose gain is negative. -/
def stepNeg : StepSettings :=
  { enabled := true, baseFrequency := 16, stepGain := JSNum.fin (-2 / 5),
    phaseOffsets := [] }

/-- A one-step scene (shorter than the 16 the scheduler cycles over). -/
def sceneUnit : OrpheusState :=
  { harmonicLayers := [layerUnit, layerFifth], steps := [stepUnit], tempo := 120,
    masterGain := 1 / 2 }

/-- A scene whose only layer carries a NaN gain. -/
def sceneNan : OrpheusState :=
  { harmonicLayers := [layerNanGain], steps := [stepUnit], tempo := 120,
    masterGain := 1 / 2 }

/-- A running engine with two live voices and a registered callback. -/
def engUnit : Engine :=
  { ctxInitialized := true, isPlaying := true, timerArmed := true,
    activeOscillators := [7, 8], stepCallbackRegistered := true, currentStep := 0,
    nextNoteTime := 0, state := sceneUnit }

/-- A stopped, quiescent engine. -/
def engStopped : Engine :=
  { ctxInitialized := true, isPlaying := false, timerArmed := false,
    activeOscillators := [], stepCallbackRegistered := false, currentStep := 0,
    nextNoteTime := 0, state := sceneUnit }

/-- A running engine whose scene is `sceneNan`. -/
def engNan : Engine :=
  { ctxInitialized := true, isPlaying := true, timerArmed := true,
    activeOscillators := [], stepCallbackRegistered := false, currentStep := 0,
    nextNoteTime := 0, state := sceneNan }

/-! ### The claims -/

/-- C1: for every tempo T > 0 the step duration used by the scheduler is
(60 / T) / 4 seconds; each iteration of the look-ahead drain loop emits
the current (step, time) pair and continues with nextNoteTime advanced by
exactly this amount and the cursor incremented; and a scheduler tick
derives that amount from the tempo current at the tick (its final
nextNoteTime is the drain loop's, run with stepDurationSec of the
engine's current tempo). -/
theorem C1_step_duration_advance (T : ℚ) (hT : 0 < T) (deadline : ℚ)
    (fuel cur : Nat) (next : ℚ) (h : next < deadline) :
    stepDurationSec T = 60 / T / 4 ∧
    schedulerLoop (stepDurationSec T) deadline (fuel + 1) cur next =
      ((schedulerLoop (stepDurationSec T) deadline fuel
          (if cur + 1 = NUM_STEPS then 0 else cur + 1) (next + stepDurationSec T)).1,
       (schedulerLoop (stepDurationSec T) deadline fuel
          (if cur + 1 = NUM_STEPS then 0 else cur + 1) (next + stepDurationSec T)).2.1,
       (cur, next) ::
         (schedulerLoop (stepDurationSec T) deadline fuel
            (if cur + 1 = NUM_STEPS then 0 else cur + 1) (next + stepDurationSec T)).2.2) ∧
    (∀ (e : Engine) (now : ℚ) (fl : Nat), e.ctxInitialized = true →
      (schedulerTick e now fl).1.nextNoteTime =
        (schedulerLoop (stepDurationSec e.state.tempo) (now + scheduleAheadTime) fl
          e.currentStep e.nextNoteTime).2.1) := by
  refine ⟨rfl, schedulerLoop_succ_pos _ _ _ _ _ h, ?_⟩
  intro e now fl hctx
  simp [schedulerTick, hctx]

/-- Witness for C1 at tempo 120. -/
theorem C1_witness : stepDurationSec 120 = 60 / 120 / 4 :=
  (C1_step_duration_advance 120 (by norm_num) 1 5 0 0 (by norm_num)).1

/-- C9: starting from a cursor in [0,16), the drain loop keeps the cursor
in [0,16): the k-th scheduled pair is ((cur + k) mod 16, next + k·d), so
indices follow the cyclic sequence with no skip or repeat within a lap,
consecutive pairs are exactly one step duration apart, step 15 is
followed by step 0, and the final cursor is (cur + number of steps
emitted) mod 16. -/
theorem C9_cursor_cyclic (T deadline : ℚ) (fuel cur : Nat) (next : ℚ)
    (hcur : cur < 16) :
    ((schedulerLoop (stepDurationSec T) deadline fuel cur next).1 < 16) ∧
    (∀ k : Nat,
      k < ((schedulerLoop (stepDurationSec T) deadline fuel cur next).2.2).length →
      ((schedulerLoop (stepDurationSec T) deadline fuel cur next).2.2)[k]? =
        some ((cur + k) % 16, next + (k : ℚ) * stepDurationSec T)) ∧
    (∀ (k : Nat) (a b : Nat × ℚ),
      ((schedulerLoop (stepDurationSec T) deadline fuel cur next).2.2)[k]? = some a →
      ((schedulerLoop (stepDurationSec T) deadline fuel cur next).2.2)[k + 1]? =
        some b →
      a.1 < 16 ∧ b.2 = a.2 + stepDurationSec T ∧ (a.1 = 15 → b.1 = 0)) ∧
    ((schedulerLoop (stepDurationSec T) deadline fuel cur next).1 =
      (cur + ((schedulerLoop (stepDurationSec T) deadline fuel cur next).2.2).length) %
        16) := by
  refine ⟨schedulerLoop_cursor_lt _ _ _ _ _ hcur,
    schedulerLoop_get (stepDurationSec T) deadline fuel cur next hcur, ?_,
    schedulerLoop_final_cursor _ _ _ _ _ hcur⟩
  intro k a b ha hb
  obtain ⟨hk1, -⟩ := List.getElem?_eq_some_iff.mp hb
  have hk : k < ((schedulerLoop (stepDurationSec T) deadline fuel cur next).2.2).length := by
    omega
  rw [schedulerLoop_get (stepDurationSec T) deadline fuel cur next hcur k hk] at ha
  rw [schedulerLoop_get (stepDurationSec T) deadline fuel cur next hcur (k + 1) hk1] at hb
  simp only [Option.some.injEq] at ha hb
  subst ha
  subst hb
  refine ⟨by omega, ?_, by omega⟩
  push_cast
  ring

/-- Witness for C9 at tempo 120 with a window holding 8 steps. -/
theorem C9_witness :
    (schedulerLoop (stepDurationSec 120) 1 20 0 0).1 < 16 ∧
    (schedulerLoop (stepDurationSec 120) 1 20 0 0).1 =
      (0 + ((schedulerLoop (stepDurationSec 120) 1 20 0 0).2.2).length) % 16 :=
  ⟨(C9_cursor_cyclic 120 1 20 0 0 (by norm_num)).1,
   (C9_cursor_cyclic 120 1 20 0 0 (by norm_num)).2.2.2⟩

/-- C5: stop() force-stops every oscillator in the live-voice set (an
oscStop action is emitted for each member) and empties the set before
returning; it also clears the pending tick timer, and a scheduler tick
only ever re-arms the timer when isPlaying is true, so the loop is never
re-armed after stop() returns. -/
theorem C5_stop_cancels (e : Engine) :
    (stop e).1.activeOscillators = [] ∧
    (stop e).1.timerArmed = false ∧
    (∀ o, o ∈ e.activeOscillators → Action.oscStop o ∈ (stop e).2) ∧
    (∀ (e2 : Engine) (now : ℚ) (fuel : Nat),
      (schedulerTick e2 now fuel).1.timerArmed = true → e2.isPlaying = true) := by
  refine ⟨rfl, rfl, ?_, ?_⟩
  · intro o ho
    exact List.mem_map_of_mem _ ho
  · intro e2 now fuel h
    by_cases hctx : e2.ctxInitialized
    · simpa [schedulerTick, hctx] using h
    · simp [schedulerTick, hctx] at h

/-- Witness for C5 on an engine with two live voices. -/
theorem C5_witness :
    (stop engUnit).1.activeOscillators = [] ∧ Action.oscStop 7 ∈ (stop engUnit).2 :=
  ⟨(C5_stop_cancels engUnit).1,
   (C5_stop_cancels engUnit).2.2.1 7 (by simp [engUnit])⟩

/-- C6: whenever the context exists and a step-callback is registered,
scheduleNote queues exactly one callback invocation, carrying the step
index, with delay max(0, (time - now) * 1000) ms so that it coincides
with the step's scheduled audio time; this holds for every step
(disabled, silent or missing ones included). -/
theorem C6_callback_once (e : Engine) (n : Nat) (t now : ℚ) (hn : n < 16)
    (hctx : e.ctxInitialized = true) (hcb : e.stepCallbackRegistered = true) :
    (scheduleNote e n t now).callbackEvents = [(n, max 0 ((t - now) * 1000))] := by
  unfold scheduleNote
  rw [hctx, hcb]
  simp only [if_true]
  split
  · rfl
  · split <;> rfl

/-- Witness for C6 at step 3. -/
theorem C6_witness :
    (scheduleNote engUnit 3 (1 / 2) 0).callbackEvents =
      [(3, max 0 ((1 / 2 - 0) * 1000))] :=
  C6_callback_once engUnit 3 (1 / 2) 0 (by norm_num) rfl rfl

/-- C8: start() on an engine that is already Running (hence has its
context, which holds for every reachable playing state) returns the
engine unchanged and spawns no second scheduling loop; stop() on an
engine that is already Stopped (timer clear, live set empty) returns it
unchanged and emits no actions. -/
theorem C8_transport_idempotent (e : Engine) (now : ℚ) (cb : Bool)
    (hinv : e.isPlaying = true → e.ctxInitialized = true) :
    (e.isPlaying = true → start e now cb = (e, [])) ∧
    (e.isPlaying = false → e.timerArmed = false → e.activeOscillators = [] →
      stop e = (e, [])) := by
  constructor
  · intro h
    unfold start
    rw [hinv h]
    simp [h]
  · intro h1 h2 h3
    obtain ⟨c, p, ta, ao, cbr, cs, nt, st⟩ := e
    simp only at h1 h2 h3
    subst h1
    subst h2
    subst h3
    rfl

/-- Witness for C8 on a running and on a stopped engine. -/
theorem C8_witness :
    start engUnit 0 false = (engUnit, []) ∧ stop engStopped = (engStopped, []) :=
  ⟨(C8_transport_idempotent engUnit 0 false (fun _ => rfl)).1 rfl,
   (C8_transport_idempotent engStopped 0 false (fun _ => rfl)).2 rfl rfl rfl⟩

/-- C10: scheduling a step index with no entry in the steps array (e.g.
after importing a scene with fewer than 16 steps) is safe: scheduleNote
(a total function) creates no voice, the step-callback timeout is still
queued exactly as for present steps, and the drain loop's cursor keeps
advancing modulo 16 regardless of the steps array. -/
theorem C10_missing_step_safe (e : Engine) (n : Nat) (t now : ℚ)
    (hctx : e.ctxInitialized = true) (hn : e.state.steps[n]? = Option.none) :
    (scheduleNote e n t now).voices = [] ∧
    (scheduleNote e n t now).callbackEvents =
      (if e.stepCallbackRegistered then [(n, max 0 ((t - now) * 1000))] else []) ∧
    (∀ (d deadline : ℚ) (fuel cur : Nat) (next : ℚ), cur < 16 →
      (schedulerLoop d deadline fuel cur next).1 =
        (cur + ((schedulerLoop d deadline fuel cur next).2.2).length) % 16 ∧
      (schedulerLoop d deadline fuel cur next).1 < 16) := by
  refine ⟨?_, ?_, ?_⟩
  · simp [scheduleNote, hctx, hn]
  · simp [scheduleNote, hctx, hn]
  · intro d deadline fuel cur next hcur
    exact ⟨schedulerLoop_final_cursor d deadline fuel cur next hcur,
      schedulerLoop_cursor_lt d deadline fuel cur next hcur⟩

/-- Witness for C10: engUnit's scene has a single step, so index 5 is
missing. -/
theorem C10_witness : (scheduleNote engUnit 5 0 0).voices = [] :=
  (C10_missing_step_safe engUnit 5 0 0 rfl rfl).1

/-- C2: the gating multiplier for step index i in [0,16) is 1.0 when
gatingMode is none; in fractal mode with a non-empty pattern it is the
entry at i mod pattern length, where a negative entry and a non-finite
entry are each replaced by 0; and in fractal mode with an empty or
missing pattern it is 1.0 (the default pattern [1.0]). -/
theorem C2_gating_multiplier (layer : HarmonicLayer) (i : Nat) (hi : i < 16) :
    (layer.gatingMode = GatingMode.none → gate layer i = 1) ∧
    (∀ (p : List JSNum) (q : ℚ), layer.gatingMode = GatingMode.fractal →
      layer.fractalPattern = some p → p[i % p.length]? = some (JSNum.fin q) →
      0 ≤ q → gate layer i = q) ∧
    (∀ (p : List JSNum) (q : ℚ), layer.gatingMode = GatingMode.fractal →
      layer.fractalPattern = some p → p[i % p.length]? = some (JSNum.fin q) →
      q < 0 → gate layer i = 0) ∧
    (∀ (p : List JSNum) (v : JSNum), layer.gatingMode = GatingMode.fractal →
      layer.fractalPattern = some p → p[i % p.length]? = some v →
      (v = JSNum.nan ∨ v = JSNum.posInf ∨ v = JSNum.negInf) → gate layer i = 0) ∧
    (layer.gatingMode = GatingMode.fractal →
      (layer.fractalPattern = Option.none ∨ layer.fractalPattern = some []) →
      gate layer i = 1) := by
  refine ⟨?_, ?_, ?_, ?_, ?_⟩
  · intro hm
    simp [gate, hm]
  · intro p q hm hp hq hq0
    obtain ⟨hlt, -⟩ := List.getElem?_eq_some_iff.mp hq
    have hpos : 0 < p.length := by omega
    simp only [gate, hm, hp, if_pos hpos]
    rw [hq]
    simp [not_lt.mpr hq0]
  · intro p q hm hp hq hneg
    obtain ⟨hlt, -⟩ := List.getElem?_eq_some_iff.mp hq
    have hpos : 0 < p.length := by omega
    simp only [gate, hm, hp, if_pos hpos]
    rw [hq]
    simp [hneg]
  · intro p v hm hp hv hcase
    obtain ⟨hlt, -⟩ := List.getElem?_eq_some_iff.mp hv
    have hpos : 0 < p.length := by omega
    simp only [gate, hm, hp, if_pos hpos]
    rw [hv]
    rcases hcase with h | h | h <;> rw [h]
  · intro hm hp
    rcases hp with h | h <;> norm_num [gate, hm, h, Nat.mod_one]

/-- Witness for C2 at the halving pattern and step index 5: multiplier
1/2 (as in the spec scenario: 5 mod 4 = 1). -/
theorem C2_witness : gate layerFifth 5 = 1 / 2 :=
  (C2_gating_multiplier layerFifth 5 (by norm_num)).2.1
    [JSNum.fin 1, JSNum.fin (1 / 2), JSNum.fin (1 / 4), JSNum.fin (1 / 8)] (1 / 2)
    rfl rfl rfl (by norm_num)

/-- C3: with real-valued (finite) gains, a voice is created for a
(step, layer) pair exactly when the step is enabled, its stepGain is
positive, the layer gain is positive, and the amplitude
stepGain * layerGain * gate exceeds 0.001; a disabled step or one with
non-positive stepGain contributes zero voices. -/
theorem C3_voice_creation (e : Engine) (n : Nat) (t now : ℚ) (step : StepSettings)
    (layer : HarmonicLayer) (sg lg : ℚ)
    (hctx : e.ctxInitialized = true) (hstep : e.state.steps[n]? = some step)
    (hsg : step.stepGain = JSNum.fin sg) (hlg : layer.gain = JSNum.fin lg) :
    (step.enabled = false ∨ sg ≤ 0 → (scheduleNote e n t now).voices = []) ∧
    (step.enabled = true → 0 < sg →
      (scheduleNote e n t now).voices =
        e.state.harmonicLayers.filterMap
          (voiceForLayer (stepDurationSec e.state.tempo) step n t) ∧
      ((voiceForLayer (stepDurationSec e.state.tempo) step n t layer).isSome = true ↔
        0 < lg ∧ 1 / 1000 < sg * lg * gate layer n)) := by
  have hpk : peakGainOf step layer n = JSNum.fin (sg * lg * gate layer n) := by
    simp [peakGainOf, hsg, hlg, JSNum.mul]
  constructor
  · intro h
    rcases h with he | hle
    · simp [scheduleNote, hctx, hstep, he]
    · simp [scheduleNote, hctx, hstep, hsg, JSNum.jsLe, hle]
  · intro he hsgpos
    have hguard : ¬ sg ≤ 0 := not_le.mpr hsgpos
    constructor
    · simp [scheduleNote, hctx, hstep, he, hsg, JSNum.jsLe, hguard]
    · rw [voiceForLayer_isSome, hlg, hpk]
      simp only [JSNum.jsLe]
      simp [decide_eq_false_iff_not, not_le]

/-- Witness for C3 on the unit layer of engUnit's scene at step 0. -/
theorem C3_witness :
    (voiceForLayer (stepDurationSec engUnit.state.tempo) stepUnit 0 0
        layerUnit).isSome = true ↔
      0 < (1 : ℚ) ∧ 1 / 1000 < 1 * 1 * gate layerUnit 0 :=
  ((C3_voice_creation engUnit 0 0 0 stepUnit layerUnit 1 1 rfl rfl rfl rfl).2
    rfl (by norm_num)).2

/-- C4 counterexample: a layer whose gain is NaN, gating mode none.  The
computed amplitude is NaN (non-finite), yet scheduleNote does NOT skip
the voice: the JavaScript test `peakGain <= 0.001` is false for NaN, so
the voice is created and NaN is applied as its envelope peak gain.  This
refutes the claim that a non-finite amplitude is never applied as a gain
in the audio graph. -/
theorem C4_counterexample :
    (scheduleNote engNan 0 0 0).voices.map Voice.peakGain = [JSNum.nan] := by
  norm_num [scheduleNote, engNan, sceneNan, stepUnit, layerNanGain, voiceForLayer,
    peakGainOf, gate, JSNum.mul, JSNum.jsLe, stepDurationSec, jsOr, jsMin, jsMax,
    JSNum.add, List.filterMap, List.lookup]

/-- C4 amended: every voice whose computed amplitude is negative — a
finite negative rational or -Infinity — is skipped and never applied as
a gain; but a NaN or +Infinity amplitude (possible only via non-finite
stepGain or layer gain, since the gating multiplier is always coerced to
a finite value) passes the epsilon test and is applied as the voice's
peak gain whenever the layer-gain guard did not already skip the
layer. -/
theorem C4_amended_amplitude (d : ℚ) (step : StepSettings) (n : Nat) (t : ℚ)
    (layer : HarmonicLayer) :
    (∀ q : ℚ, peakGainOf step layer n = JSNum.fin q → q < 0 →
      voiceForLayer d step n t layer = Option.none) ∧
    (peakGainOf step layer n = JSNum.negInf →
      voiceForLayer d step n t layer = Option.none) ∧
    (layer.gain.jsLe (JSNum.fin 0) = false →
      (peakGainOf step layer n = JSNum.nan ∨ peakGainOf step layer n = JSNum.posInf) →
      (voiceForLayer d step n t layer).map Voice.peakGain =
        some (peakGainOf step layer n)) := by
  refine ⟨?_, ?_, ?_⟩
  · intro q hq hneg
    unfold voiceForLayer
    by_cases h1 : layer.gain.jsLe (JSNum.fin 0) = true
    · rw [if_pos h1]
    · rw [if_neg h1]
      rw [if_pos]
      rw [hq]
      simp only [JSNum.jsLe, decide_eq_true_eq]
      linarith
  · intro hq
    unfold voiceForLayer
    by_cases h1 : layer.gain.jsLe (JSNum.fin 0) = true
    · rw [if_pos h1]
    · rw [if_neg h1]
      rw [if_pos]
      rw [hq]
      rfl
  · intro hg hcase
    unfold voiceForLayer
    rw [if_neg (by rw [hg]; exact Bool.false_ne_true)]
    rcases hcase with h | h <;>
      rw [if_neg (by rw [h]; exact Bool.false_ne_true)] <;> simp

/-- Witness for C4 amended: a negative amplitude (stepGain -2/5) skips
the voice. -/
theorem C4_witness : voiceForLayer (1 / 8) stepNeg 0 0 layerUnit = Option.none :=
  (C4_amended_amplitude (1 / 8) stepNeg 0 0 layerUnit).1 (-2 / 5)
    (by norm_num [peakGainOf, stepNeg, layerUnit, gate, JSNum.mul]) (by norm_num)

/-- C7: for a stored finite phase-offset value f (a missing entry read
as 0), the start offset applied to the layer's voice is
min(max(f,0), 0.9) * stepDuration (the voice starts at the step's
nominal time plus that offset), and this offset is strictly less than
the step duration for every tempo T > 0. -/
theorem C7_phase_offset_clamped (d : ℚ) (step : StepSettings) (n : Nat) (t : ℚ)
    (layer : HarmonicLayer) (f : ℚ)
    (hf : step.phaseOffsets.lookup layer.id = some (JSNum.fin f) ∨
      (step.phaseOffsets.lookup layer.id = Option.none ∧ f = 0)) :
    (∀ v : Voice, voiceForLayer d step n t layer = some v →
      v.startTime = JSNum.fin (t + min (max f 0) (9 / 10) * d)) ∧
    (∀ T : ℚ, 0 < T →
      min (max f 0) (9 / 10) * stepDurationSec T < stepDurationSec T) := by
  constructor
  · intro v hv
    have hfrac : jsOr (step.phaseOffsets.lookup layer.id) (JSNum.fin 0) = JSNum.fin f := by
      rcases hf with h | ⟨h, hf0⟩
      · rw [h]
        by_cases h0 : f = 0 <;> simp [jsOr, h0]
      · rw [h, hf0]
        rfl
    have h1 := voiceForLayer_startTime d step n t layer v hv
    rw [hfrac] at h1
    rw [h1]
    simp only [jsMin, jsMax, JSNum.mul, JSNum.add]
    rw [clamp_eq]
  · intro T hT
    have hd : 0 < stepDurationSec T := by
      unfold stepDurationSec
      positivity
    have hle : min (max f 0) (9 / 10) ≤ 9 / 10 := min_le_right _ _
    calc min (max f 0) (9 / 10) * stepDurationSec T
        ≤ 9 / 10 * stepDurationSec T := by
          exact mul_le_mul_of_nonneg_right hle hd.le
      _ < stepDurationSec T := by linarith

/-- Witness for C7 with stored offset 1/2 and tempo 120. -/
theorem C7_witness :
    min (max (1 / 2 : ℚ) 0) (9 / 10) * stepDurationSec 120 < stepDurationSec 120 :=
  (C7_phase_offset_clamped (1 / 8) stepUnit 0 0 layerUnit (1 / 2) (Or.inl rfl)).2
    120 (by norm_num)

end Orpheus
